import Mathlib

/-!
# Verification of the libriscv core against its specification

Shallow embedding of the ELF validation / loading helpers (`elf.hpp`),
the `Memory` layout accessors, and the `CPU` page-resolution and jump
logic (`cpu_inline.hpp` fragment), together with theorems settling the
frozen claims about the natural-language specification.

Machine integers are modelled as `Nat` with explicit reduction
`% 2 ^ 64` where the C++ code can wrap (`size_t` / `address_t`
arithmetic); a binary blob (`std::string_view`) is a `List Nat` of byte
values.
-/

namespace LibRiscv

/-- The exception kinds of `MachineException` that the embedded code can
raise (subset of the `riscv` error enum used by the claims). -/
inductive MachExcept where
  | INVALID_PROGRAM
  | MISALIGNED_INSTRUCTION
  | EXECUTION_SPACE_PROTECTION_FAULT
  deriving DecidableEq, Repr

/-! ## ELF validation (`Elf<W>::validate`, elf.hpp lines 127-145) -/

/-- `ELFCLASS32` constant (elf.hpp line 8). -/
def ELFCLASS32 : Nat := 1
/-- `ELFCLASS64` constant (elf.hpp line 9). -/
def ELFCLASS64 : Nat := 2
/-- `ELFCLASS128` constant (elf.hpp line 10). -/
def ELFCLASS128 : Nat := 3
/-- `Elf::Header::EM_RISCV` constant (elf.hpp line 35). -/
def EM_RISCV : Nat := 243

/-- `sizeof(Elf<W>::Header)` for address width `W` (bytes): the header
struct of elf.hpp lines 30-51 laid out with natural alignment.  For
`W = 4` (`addr_t = uint32_t`) the size is 52; for `W = 8`
(`addr_t = uint64_t`) it is 64 — the standard ELF32/ELF64 Ehdr sizes. -/
def ehdrSize (w : Nat) : Nat :=
  if w = 4 then 52 else 64

/-- Byte `i` of a binary blob (reads as the C++ cast
`*(Header*)binary.data()` does; out-of-range defaults are never used by
the call sites proved about, which bound-check first). -/
def byteAt (b : List Nat) (i : Nat) : Nat := b.getD i 0

/-- `Elf<W>::validate(binary)` (elf.hpp lines 127-145): reject a blob
shorter than the header, reject a wrong magic, then require the class
byte `e_ident[EI_CLASS]` (index 4) to match the width. -/
def validate (w : Nat) (b : List Nat) : Bool :=
  if b.length < ehdrSize w then false
  else if byteAt b 0 != 0x7F || byteAt b 1 != 69 ||
          byteAt b 2 != 76 || byteAt b 3 != 70 then false
  else if w = 4 then byteAt b 4 == ELFCLASS32
  else if w = 8 then byteAt b 4 == ELFCLASS64
  else if w = 16 then byteAt b 4 == ELFCLASS128
  else false

/-- The `e_machine` field of the header: a little-endian `uint16_t` at
byte offset 18 of the blob (after `e_ident[16]` and `e_type`). -/
def e_machine_of (b : List Nat) : Nat :=
  byteAt b 18 + 256 * byteAt b 19

/-- Modelled from the spec: the loader's acceptance of a binary.
`Memory<W>::binary_loader` is declared (elf.hpp line 390) but its
definition is not among the sources; spec section 4.3 says the loader
validates magic and class and "Reject if machine != EM_RISCV (243) or
the file is shorter than the header".  `validate` (from the source)
covers the size, magic and class checks; the missing machine check is
modelled as stated. -/
def loader_accepts (w : Nat) (b : List Nat) : Bool :=
  validate w b && (e_machine_of b == EM_RISCV)

/-! ## Bounded access into the binary (`Memory<W>::elf_offset`,
elf.hpp lines 371-383) -/

/-- Modulus of `size_t` arithmetic on the host (64-bit). -/
def SIZE_T_MOD : Nat := 2 ^ 64

/-- `Memory<W>::elf_offset<T>(ofs)` (elf.hpp lines 371-380) with
`szT = sizeof(T)` and `size = m_binary.size()`: the C++ computes
`ofs + sizeof(T)` in `size_t` (wrapping), and returns a pointer at
offset `ofs` when `ofs + sizeof(T) >= ofs && ofs + sizeof(T) < size`;
otherwise it throws `INVALID_PROGRAM`. -/
def elf_offset (ofs szT size : Nat) : Except MachExcept Nat :=
  if ofs ≤ (ofs + szT) % SIZE_T_MOD ∧ (ofs + szT) % SIZE_T_MOD < size then
    Except.ok ofs
  else
    Except.error MachExcept.INVALID_PROGRAM

/-- `Memory<W>::elf_header()` (elf.hpp lines 381-383):
`elf_offset<Header>(0)` on a binary of the given size. -/
def elf_header (w : Nat) (size : Nat) : Except MachExcept Nat :=
  elf_offset 0 (ehdrSize w) size

/-! ## Memory layout accessors (elf.hpp, `Memory<W>` section) -/

/-- Modulus of `address_t` arithmetic for address width `w` bytes
(`uint32_t` for `w = 4`, `uint64_t` for `w = 8`). -/
def addr_mod (w : Nat) : Nat := 2 ^ (8 * w)

/-- Modelled from the spec: the value of `RISCV_BRK_MEMORY_SIZE`, the
macro behind `Memory<W>::BRK_MAX` (elf.hpp line 175).  Its definition
is not among the sources; spec section 6 says "brk window of size
BRK_MAX (default 16 MiB)". -/
def BRK_MAX : Nat := 16 * 1024 * 1024

/-- The address-valued fields of `Memory<W>` relevant to the claims
(elf.hpp lines 397-401). -/
structure MemoryLayout where
  m_start_address : Nat
  m_stack_address : Nat
  m_exit_address : Nat
  m_mmap_address : Nat
  m_heap_address : Nat
  deriving Repr

/-- `Memory<W>::stack_initial()` (elf.hpp line 224). -/
def stack_initial (m : MemoryLayout) : Nat := m.m_stack_address

/-- `Memory<W>::heap_address()` (elf.hpp line 230). -/
def heap_address (m : MemoryLayout) : Nat := m.m_heap_address

/-- `Memory<W>::mmap_start()` (elf.hpp line 233):
`m_heap_address + BRK_MAX` in `address_t` arithmetic (wraps at the
address width). -/
def mmap_start (w : Nat) (m : MemoryLayout) : Nat :=
  (m.m_heap_address + BRK_MAX) % addr_mod w

/-! ## CPU register file, `reset_stack_pointer` and `jump`
(cpu_inline.hpp fragment, src/unnamed/part_000 lines 185-257) -/

/-- `RISCV::REG_SP`: index of the stack-pointer register x2. -/
def REG_SP : Nat := 2

/-- The general register file: register index to word value. -/
def RegFile : Type := Nat → Nat

/-- Write register `i` (the C++ `this->reg(i) = v`). -/
def setReg (r : RegFile) (i v : Nat) : RegFile :=
  fun j => if j = i then v else r j

/-- `CPU<W>::reset_stack_pointer()` (part_000 lines 190-195): set the
SP register to `machine().memory.stack_initial()`. -/
def reset_stack_pointer (mem : MemoryLayout) (r : RegFile) : RegFile :=
  setReg r REG_SP (stack_initial mem)

/-- Modelled from the spec: register initialisation at machine
construction.  The `Machine<W>` constructor is not among the sources;
spec section 4.6 says "On construction: ... initialize CPU registers
to zero except SP which is set to `stack_initial()`" — zero the file,
then apply `reset_stack_pointer` (whose definition is in the source). -/
def machine_init_registers (mem : MemoryLayout) : RegFile :=
  reset_stack_pointer mem (fun _ => 0)

/-- The CPU register state touched by `jump`: the program counter. -/
structure JumpState where
  pc : Nat
  deriving DecidableEq, Repr

/-- `CPU<W>::jump(dst)` (part_000 lines 243-257): assign
`registers().pc = dst`, then raise `MISALIGNED_INSTRUCTION` when
`pc & 0x3` is nonzero (compressed instructions disabled) or when
`pc & 0x1` is nonzero (compressed enabled).  The state mutation
happens before the throw, so the pair returns the updated state
together with the raised exception, if any. -/
def jump (compressed_enabled : Bool) (dst : Nat) (r : JumpState) :
    JumpState × Option MachExcept :=
  let r1 : JumpState := { r with pc := dst }
  if !compressed_enabled then
    if r1.pc &&& 0x3 ≠ 0 then (r1, some MachExcept.MISALIGNED_INSTRUCTION)
    else (r1, none)
  else
    if r1.pc &&& 0x1 ≠ 0 then (r1, some MachExcept.MISALIGNED_INSTRUCTION)
    else (r1, none)

/-! ## Execute-page resolution (`CPU<W>::change_page` / `check_page`,
part_000 lines 197-241) -/

/-- `Page::SHIFT` (spec section 3: page size 4096 bytes, shift 12). -/
def PAGE_SHIFT : Nat := 12

/-- The kinds of page trap (spec section 4.1: trapped pages call
`trap_cb(offset, kind, pageno)`; execute resolution uses `TRAP_EXEC`). -/
inductive TrapKind where
  | TRAP_READ
  | TRAP_WRITE
  | TRAP_EXEC
  deriving DecidableEq, Repr

/-- The fields of a `Page` that the execute path inspects: the `exec`
attribute bit and whether a trap callback is installed
(`page->attr.exec`, `page->has_trap()`). -/
structure Page where
  exec : Bool
  has_trap : Bool
  deriving DecidableEq, Repr

/-- `CPU<W>::CachedPage`: a page number together with the page it
resolved to (the source stores a pointer; the model stores the value). -/
structure CachedPage where
  pageno : Nat
  page : Page
  deriving DecidableEq, Repr

/-- The CPU state touched by `change_page`/`check_page`: the program
counter, the current execute page `m_current_page`, the small execute
page cache `m_page_cache` and its insertion cursor `m_cache_iterator`. -/
structure CPUState where
  pc : Nat
  current : CachedPage
  page_cache : List CachedPage
  cache_iterator : Nat
  deriving Repr

/-- The machine context the CPU consults: the page table behind
`machine().memory` (page number to `Page`), the compile-time
configuration bits, and the trap callback a trapped page invokes
(`Page::trap`; the callback receives the offset, kind and page number
and may mutate the CPU state, e.g. redirect the PC). -/
structure MachineEnv where
  mem : Nat → Page
  page_cache_enabled : Bool
  execute_traps_enabled : Bool
  trap_cb : Nat → TrapKind → Nat → CPUState → CPUState

/-- Modelled from the spec: `Memory<W>::get_exec_pageno(npage)` is
declared (elf.hpp line 275) but its definition is not among the
sources; spec section 4.1 says it "raises
EXECUTION_SPACE_PROTECTION_FAULT if page has no exec permission",
otherwise it returns the page. -/
def get_exec_pageno (env : MachineEnv) (npage : Nat) :
    Except MachExcept Page :=
  let p := env.mem npage
  if p.exec then Except.ok p
  else Except.error MachExcept.EXECUTION_SPACE_PROTECTION_FAULT

/-- The `RISCV_PAGE_CACHE` lookup loop at the top of `change_page`
(part_000 lines 200-207): first cache entry with a matching page
number, if any. -/
def cache_lookup (cache : List CachedPage) (pageno : Nat) :
    Option CachedPage :=
  cache.find? (fun e => e.pageno == pageno)

/-- The `RISCV_PAGE_CACHE` insertion after a miss (part_000 lines
211-214): `m_page_cache[m_cache_iterator % m_page_cache.size()] =
m_current_page; m_cache_iterator++`.  (The C++ array is statically
nonempty; an empty model cache is left unchanged.) -/
def cache_insert (s : CPUState) : CPUState :=
  if s.page_cache.length = 0 then
    { s with cache_iterator := s.cache_iterator + 1 }
  else
    { s with
      page_cache :=
        s.page_cache.set (s.cache_iterator % s.page_cache.length) s.current
      cache_iterator := s.cache_iterator + 1 }

/-- Lines 200-215 of part_000: resolve `m_current_page` for `pageno` —
a page-cache hit copies the cached entry; a miss calls
`get_exec_pageno` (which can fault) and records the result in the
cache. -/
def resolve_current_page (env : MachineEnv) (pageno : Nat)
    (s : CPUState) : Except MachExcept CPUState :=
  match (if env.page_cache_enabled then cache_lookup s.page_cache pageno
         else none) with
  | some e => Except.ok { s with current := e }
  | none =>
    match get_exec_pageno env pageno with
    | Except.error ex => Except.error ex
    | Except.ok pg =>
      let s1 := { s with current := ⟨pageno, pg⟩ }
      Except.ok (if env.page_cache_enabled then cache_insert s1 else s1)

/-- Result of a (possibly recursive) page change: a new state, a
raised `MachineException`, or exhaustion of the recursion fuel the
model adds to bound the `check_page` / `change_page` mutual recursion
(a trap callback may redirect the PC onto another trapped page; the
C++ recursion is unbounded). -/
inductive CPUResult where
  | ok (s : CPUState)
  | fault (e : MachExcept)
  | fuelOut
  deriving Repr

/-- Wrap-around subtraction of 64-bit unsigned values (the
`this->pc() - (cp.pageno << Page::SHIFT)` of `check_page`). -/
def wsub (a b : Nat) : Nat :=
  (a + (SIZE_T_MOD - b % SIZE_T_MOD)) % SIZE_T_MOD

mutual

/-- `CPU<W>::change_page(pageno)` (part_000 lines 197-229): resolve
the current page (cache hit or `get_exec_pageno`), then — the
`riscv_validate_current_page` label — run `check_page` when execute
traps are compiled in, and finally raise
`EXECUTION_SPACE_PROTECTION_FAULT` unless the (possibly re-resolved)
current page has the exec attribute.  `fuel` only bounds the mutual
recursion; each call consumes one unit. -/
def change_page (env : MachineEnv) : Nat → Nat → CPUState → CPUResult
  | 0, _, _ => CPUResult.fuelOut
  | fuel + 1, pageno, s =>
    match resolve_current_page env pageno s with
    | Except.error ex => CPUResult.fault ex
    | Except.ok s1 =>
      match (if env.execute_traps_enabled then check_page env fuel s1
             else CPUResult.ok s1) with
      | CPUResult.ok s2 =>
        if s2.current.page.exec then CPUResult.ok s2
        else CPUResult.fault MachExcept.EXECUTION_SPACE_PROTECTION_FAULT
      | r => r

/-- `CPU<W>::check_page(cp)` (part_000 lines 231-241): when the
current page has a trap, invoke the trap callback with
`pc - (pageno << SHIFT)`, `TRAP_EXEC` and the page number; if the PC
afterwards lies on a different page than the cached one, re-resolve
via `change_page(pc >> SHIFT)`. -/
def check_page (env : MachineEnv) : Nat → CPUState → CPUResult
  | 0, _ => CPUResult.fuelOut
  | fuel + 1, s =>
    if s.current.page.has_trap then
      let t := env.trap_cb (wsub s.pc (s.current.pageno <<< PAGE_SHIFT))
                 TrapKind.TRAP_EXEC s.current.pageno s
      let new_pageno := t.pc >>> PAGE_SHIFT
      if t.current.pageno ≠ new_pageno then
        change_page env fuel new_pageno t
      else CPUResult.ok t
    else CPUResult.ok s

end

/-! ## Concrete binaries used as evaluation inputs -/

/-- A 52-byte blob: exactly `sizeof(Elf<4>::Header)` bytes, with the
ELF magic and the ELFCLASS32 class byte; every other byte zero. -/
def hdr52 : List Nat := [0x7F, 69, 76, 70, 1] ++ List.replicate 47 0

/-! ## Theorems for the claims -/

/-- Helper: the `size_t` sum `ofs + szT` does not wrap exactly when
the mathematical sum stays below `2^64`, in which case the wrapped sum
is the mathematical one. -/
theorem size_t_add_cases (ofs szT : Nat) (hofs : ofs < SIZE_T_MOD)
    (hszT : szT < SIZE_T_MOD) :
    (ofs + szT) % SIZE_T_MOD =
      if ofs + szT < SIZE_T_MOD then ofs + szT else ofs + szT - SIZE_T_MOD := by
  split
  · exact Nat.mod_eq_of_lt ‹_›
  · rw [Nat.mod_eq_sub_mod (by omega)]
    exact Nat.mod_eq_of_lt (by omega)

/-- **C6.** For `W ∈ {4, 8}`, `Elf<W>::validate` returns `true`
exactly when the blob is at least as large as the ELF header, its
first four bytes are `0x7F 'E' 'L' 'F'`, and the class byte (index 4
of `e_ident`) is ELFCLASS32 for `W = 4` resp. ELFCLASS64 for
`W = 8`. -/
theorem validate_true_iff (w : Nat) (b : List Nat) (hw : w = 4 ∨ w = 8) :
    validate w b = true ↔
      (ehdrSize w ≤ b.length ∧
       byteAt b 0 = 0x7F ∧ byteAt b 1 = 69 ∧
       byteAt b 2 = 76 ∧ byteAt b 3 = 70 ∧
       byteAt b 4 = (if w = 4 then ELFCLASS32 else ELFCLASS64)) := by
  rcases hw with hw | hw <;> subst hw <;>
    simp only [validate, ehdrSize, ELFCLASS32, ELFCLASS64] <;>
    split_ifs <;> simp_all <;> omega

/-- Witness for C6: the 52-byte magic blob is accepted by
`validate` for `W = 4`. -/
theorem validate_true_iff_witness : validate 4 hdr52 = true :=
  (validate_true_iff 4 hdr52 (Or.inl rfl)).mpr (by decide)

/-- **C1.** The loader (validation plus the spec-modelled machine
check) rejects a blob shorter than the ELF header, and rejects a blob
whose `e_machine` differs from `EM_RISCV` (243). -/
theorem loader_rejects (w : Nat) (b : List Nat) :
    (b.length < ehdrSize w → loader_accepts w b = false) ∧
    (e_machine_of b ≠ EM_RISCV → loader_accepts w b = false) := by
  constructor
  · intro hshort
    have hv : validate w b = false := by
      simp only [validate]
      rw [if_pos hshort]
    simp [loader_accepts, hv]
  · intro hm
    simp [loader_accepts, hm]

/-- Witness for C1: the empty blob (shorter than any header, and with
`e_machine = 0 ≠ 243`) is rejected for `W = 4`. -/
theorem loader_rejects_witness : loader_accepts 4 [] = false :=
  (loader_rejects 4 []).1 (by decide)

/-- **C2.** `elf_offset<T>(ofs)` yields a pointer exactly when
`ofs + sizeof(T)` neither wraps around `size_t` nor reaches the
binary's size; in every other case it raises `INVALID_PROGRAM`; and a
successful access never extends past the binary's bounds. -/
theorem elf_offset_bounds (ofs szT size : Nat)
    (hofs : ofs < SIZE_T_MOD) (hszT : szT < SIZE_T_MOD) :
    (elf_offset ofs szT size = Except.ok ofs ↔
      (ofs + szT < SIZE_T_MOD ∧ ofs + szT < size)) ∧
    (¬(ofs + szT < SIZE_T_MOD ∧ ofs + szT < size) →
      elf_offset ofs szT size =
        Except.error MachExcept.INVALID_PROGRAM) ∧
    (elf_offset ofs szT size = Except.ok ofs → ofs + szT ≤ size) := by
  have hm := size_t_add_cases ofs szT hofs hszT
  refine ⟨?_, ?_, ?_⟩
  · rw [elf_offset, hm]
    split_ifs with h1 h2 <;> simp <;> omega
  · intro hno
    rw [elf_offset, hm]
    split_ifs with h1 h2 <;> first | rfl | (exfalso; omega)
  · intro hok
    rw [elf_offset, hm] at hok
    split_ifs at hok with h1 h2 <;> simp_all <;> omega

/-- Witness for C2: offset 0 with a 52-byte structure inside a
53-byte binary is accepted. -/
theorem elf_offset_bounds_witness : elf_offset 0 52 53 = Except.ok 0 :=
  (elf_offset_bounds 0 52 53 (by norm_num [SIZE_T_MOD])
    (by norm_num [SIZE_T_MOD])).1.mpr (by norm_num [SIZE_T_MOD])

/-- **C10.** A structure ending exactly at the binary's last byte is
rejected by `elf_offset` (strict `<` on the end offset); in
particular, a binary of exactly `sizeof(Elf<4>::Header)` bytes with
valid magic and class passes `validate`, yet `elf_header()` on it
raises `INVALID_PROGRAM`. -/
theorem exact_fit_rejected :
    (∀ ofs szT size : Nat, size < SIZE_T_MOD → ofs + szT = size →
      elf_offset ofs szT size =
        Except.error MachExcept.INVALID_PROGRAM) ∧
    validate 4 hdr52 = true ∧
    hdr52.length = ehdrSize 4 ∧
    elf_header 4 hdr52.length =
      Except.error MachExcept.INVALID_PROGRAM := by
  refine ⟨?_, by decide, by decide, by rfl⟩
  intro ofs szT size hsize hend
  rw [elf_offset, Nat.mod_eq_of_lt (by omega)]
  rw [if_neg (by omega)]

/-- Witness for C10: a 52-byte structure at offset 0 of a 52-byte
binary is rejected. -/
theorem exact_fit_rejected_witness :
    elf_offset 0 52 52 = Except.error MachExcept.INVALID_PROGRAM :=
  exact_fit_rejected.1 0 52 52 (by norm_num [SIZE_T_MOD]) rfl

/-- **C3.** `CPU::jump(dst)` raises `MISALIGNED_INSTRUCTION` exactly
when `dst` is not 4-byte aligned (compressed instructions disabled)
resp. not 2-byte aligned (compressed enabled); an aligned target
raises no exception. -/
theorem jump_misaligned_iff (ce : Bool) (dst : Nat) (r : JumpState) :
    ((jump ce dst r).2 = some MachExcept.MISALIGNED_INSTRUCTION ↔
      (if ce then dst % 2 ≠ 0 else dst % 4 ≠ 0)) ∧
    ((if ce then dst % 2 = 0 else dst % 4 = 0) →
      (jump ce dst r).2 = none) := by
  have h4 : dst &&& 3 = dst % 4 := by
    have := Nat.and_pow_two_sub_one_eq_mod dst 2
    norm_num at this
    exact this
  have h2 : dst &&& 1 = dst % 2 := Nat.and_one_is_mod dst
  cases ce <;>
    simp only [jump, Bool.not_true, Bool.not_false, if_true, if_false,
      Bool.false_eq_true, h4, h2] <;>
    constructor <;> split_ifs <;> simp_all

/-- Witness for C3: with compressed disabled, the 4-byte-aligned
target 8 raises no exception. -/
theorem jump_misaligned_iff_witness : (jump false 8 ⟨0⟩).2 = none :=
  (jump_misaligned_iff false 8 ⟨0⟩).2 (by decide)

/-- **C9.** When `jump(dst)` raises `MISALIGNED_INSTRUCTION`, the PC
has already been assigned `dst`: the misaligned address remains in the
PC of the resulting state. -/
theorem jump_pc_set_on_fault (ce : Bool) (dst : Nat) (r : JumpState)
    (hex : (jump ce dst r).2 = some MachExcept.MISALIGNED_INSTRUCTION) :
    (jump ce dst r).1.pc = dst := by
  cases ce <;> simp only [jump] <;> split_ifs <;> rfl

/-- Witness for C9: jumping to the misaligned target 1 (compressed
disabled) faults with the PC holding 1. -/
theorem jump_pc_set_on_fault_witness : (jump false 1 ⟨0⟩).1.pc = 1 :=
  jump_pc_set_on_fault false 1 ⟨0⟩ (by decide)

/-- **C7.** `reset_stack_pointer` writes `stack_initial()` to the SP
register (index 2), and the spec-modelled construction-time register
initialisation leaves SP holding `stack_initial()`. -/
theorem sp_is_stack_initial (mem : MemoryLayout) (r : RegFile) :
    reset_stack_pointer mem r REG_SP = stack_initial mem ∧
    machine_init_registers mem REG_SP = stack_initial mem := by
  constructor <;> rfl

/-- **C8.** When `heap_address + BRK_MAX` does not overflow the
address width, `mmap_start()` is exactly `BRK_MAX` bytes above the
initial heap address. -/
theorem mmap_start_heap_plus_brk (w : Nat) (m : MemoryLayout)
    (h : m.m_heap_address + BRK_MAX < addr_mod w) :
    mmap_start w m = heap_address m + BRK_MAX := by
  unfold mmap_start heap_address
  exact Nat.mod_eq_of_lt h

/-- Witness for C8: at `W = 8` with heap address `0x10000`,
`mmap_start` is `0x10000 + BRK_MAX`. -/
theorem mmap_start_heap_plus_brk_witness :
    mmap_start 8 ⟨0, 0, 0, 0, 0x10000⟩ = 0x10000 + BRK_MAX :=
  mmap_start_heap_plus_brk 8 ⟨0, 0, 0, 0, 0x10000⟩
    (by norm_num [BRK_MAX, addr_mod])

/-- Helper: a successful `resolve_current_page` does not move the PC
and leaves the current page holding the requested page number. -/
theorem resolve_current_page_ok_facts (env : MachineEnv) (pageno : Nat)
    (s s1 : CPUState)
    (h : resolve_current_page env pageno s = Except.ok s1) :
    s1.pc = s.pc ∧ s1.current.pageno = pageno := by
  unfold resolve_current_page at h
  rcases hl : (if env.page_cache_enabled then cache_lookup s.page_cache pageno
               else none) with _ | e <;> rw [hl] at h
  · rcases hg : get_exec_pageno env pageno with ex | pg <;> rw [hg] at h
    · exact absurd h (by simp)
    · have hs1 : s1 = (if env.page_cache_enabled
          then cache_insert { s with current := ⟨pageno, pg⟩ }
          else { s with current := ⟨pageno, pg⟩ }) := by
        cases h; rfl
      subst hs1
      split <;> simp [cache_insert] <;> split <;> simp
  · have he : e.pageno = pageno := by
      have hfind : cache_lookup s.page_cache pageno = some e := by
        by_cases hc : env.page_cache_enabled <;> simp [hc] at hl
        · exact hl
      have := List.find?_some hfind
      simpa [cache_lookup] using this
    have hs1 : s1 = { s with current := e } := by cases h; rfl
    subst hs1
    exact ⟨rfl, he⟩

/-- Helper: `wsub` agrees with mathematical subtraction when the
minuend is in range and at least the subtrahend. -/
theorem wsub_eq_sub (a b : Nat) (hba : b ≤ a) (ha : a < SIZE_T_MOD) :
    wsub a b = a - b := by
  have h1 : b % SIZE_T_MOD = b := Nat.mod_eq_of_lt (by omega)
  rw [wsub, h1]
  have h2 : a + (SIZE_T_MOD - b) = (a - b) + SIZE_T_MOD := by omega
  rw [h2, Nat.add_mod_right]
  exact Nat.mod_eq_of_lt (by omega)

/-- Helper (mutual invariant): whenever `change_page` is invoked with
the page number of the current PC and succeeds, the resulting cached
page number matches `pc >> 12` of the resulting state; same for
`check_page` when the incoming state already satisfies the invariant
or its current page is trapped. -/
theorem pageno_tracks_pc (env : MachineEnv) (fuel : Nat) :
    (∀ pageno s u, pageno = s.pc >>> PAGE_SHIFT →
      change_page env fuel pageno s = CPUResult.ok u →
      u.current.pageno = u.pc >>> PAGE_SHIFT) ∧
    (∀ s u, (s.current.pageno = s.pc >>> PAGE_SHIFT ∨
             s.current.page.has_trap = true) →
      check_page env fuel s = CPUResult.ok u →
      u.current.pageno = u.pc >>> PAGE_SHIFT) := by
  induction fuel with
  | zero =>
    constructor
    · intro pageno s u _ h
      simp [change_page] at h
    · intro s u _ h
      simp [check_page] at h
  | succ f ih =>
    constructor
    · intro pageno s u hpn h
      simp only [change_page] at h
      rcases hr : resolve_current_page env pageno s with ex | s1 <;>
        rw [hr] at h
      · exact absurd h (by simp)
      · obtain ⟨hpc1, hcur1⟩ := resolve_current_page_ok_facts env pageno s s1 hr
        dsimp only at h
        rcases hc : (if env.execute_traps_enabled then check_page env f s1
                     else CPUResult.ok s1) with s2 | ex | _ <;>
          rw [hc] at h <;> dsimp only at h
        · have hs2 : s2.current.pageno = s2.pc >>> PAGE_SHIFT := by
            by_cases ht : env.execute_traps_enabled
            · rw [if_pos ht] at hc
              exact ih.2 s1 s2 (Or.inl (by rw [hcur1, hpc1, hpn])) hc
            · rw [if_neg ht] at hc
              cases hc
              rw [hcur1, hpc1, hpn]
          by_cases hex : s2.current.page.exec = true
          · rw [if_pos hex, CPUResult.ok.injEq] at h
            subst h
            exact hs2
          · rw [if_neg hex] at h
            exact absurd h (by simp)
        · exact absurd h (by simp)
        · exact absurd h (by simp)
    · intro s u hpre h
      simp only [check_page] at h
      by_cases ht : s.current.page.has_trap = true <;>
        simp only [ht, if_true, if_false, Bool.false_eq_true] at h
      · set t := env.trap_cb (wsub s.pc (s.current.pageno <<< PAGE_SHIFT))
            TrapKind.TRAP_EXEC s.current.pageno s with hts
        by_cases hred : t.current.pageno = t.pc >>> PAGE_SHIFT
        · rw [if_neg (not_not_intro hred), CPUResult.ok.injEq] at h
          subst h
          exact hred
        · rw [if_pos hred] at h
          exact ih.1 (t.pc >>> PAGE_SHIFT) t u rfl h
      · cases h
        rcases hpre with hpre | hpre
        · exact hpre
        · exact absurd hpre ht

/-- **C4.** No path through `change_page` resolves a non-executable
current page: a successful return always carries an exec page; on a
page-cache miss a non-exec page faults with
`EXECUTION_SPACE_PROTECTION_FAULT` (via `get_exec_pageno`); and on a
page-cache hit whose cached page is non-exec the final permission
check faults as well (stated for hits that do not fire a redirecting
execute trap first). -/
theorem change_page_exec_protection (env : MachineEnv)
    (fuel pageno : Nat) (s : CPUState) :
    (∀ s', change_page env fuel pageno s = CPUResult.ok s' →
      s'.current.page.exec = true) ∧
    ((env.page_cache_enabled = false ∨
        cache_lookup s.page_cache pageno = none) →
      (env.mem pageno).exec = false →
      change_page env (fuel + 1) pageno s =
        CPUResult.fault MachExcept.EXECUTION_SPACE_PROTECTION_FAULT) ∧
    (∀ e, env.page_cache_enabled = true →
      cache_lookup s.page_cache pageno = some e →
      e.page.exec = false →
      (env.execute_traps_enabled = false ∨ e.page.has_trap = false) →
      change_page env (fuel + 2) pageno s =
        CPUResult.fault MachExcept.EXECUTION_SPACE_PROTECTION_FAULT) := by
  refine ⟨?_, ?_, ?_⟩
  · intro s' h
    cases fuel with
    | zero => simp [change_page] at h
    | succ f =>
      simp only [change_page] at h
      rcases hr : resolve_current_page env pageno s with ex | s1 <;>
        rw [hr] at h <;> dsimp only at h
      · exact absurd h (by simp)
      · rcases hc : (if env.execute_traps_enabled then check_page env f s1
                     else CPUResult.ok s1) with s2 | ex | _ <;>
          rw [hc] at h <;> dsimp only at h
        · by_cases hex : s2.current.page.exec = true
          · rw [if_pos hex, CPUResult.ok.injEq] at h
            subst h
            exact hex
          · rw [if_neg hex] at h
            exact absurd h (by simp)
        · exact absurd h (by simp)
        · exact absurd h (by simp)
  · intro hmiss hexec
    have hl : (if env.page_cache_enabled
        then cache_lookup s.page_cache pageno else none) = none := by
      rcases hmiss with hm | hm <;> simp [hm]
    have hg : get_exec_pageno env pageno =
        Except.error MachExcept.EXECUTION_SPACE_PROTECTION_FAULT := by
      rw [get_exec_pageno, if_neg (by simp [hexec])]
    simp only [change_page, resolve_current_page, hl, hg]
  · intro e hcache hhit hexec htr
    have hl : (if env.page_cache_enabled
        then cache_lookup s.page_cache pageno else none) = some e := by
      rw [if_pos hcache, hhit]
    have hres : resolve_current_page env pageno s =
        Except.ok { s with current := e } := by
      rw [resolve_current_page, hl]
    have hchk : (if env.execute_traps_enabled
        then check_page env (fuel + 1) { s with current := e }
        else CPUResult.ok { s with current := e }) =
        CPUResult.ok { s with current := e } := by
      rcases htr with ht | ht
      · rw [if_neg (by simp [ht])]
      · split
        · rw [check_page, if_neg (by simp [ht])]
        · rfl
    simp only [change_page, hres]
    rw [hchk]
    dsimp only
    rw [if_neg (by simp [hexec])]

/-- Witness for C4: a state with an empty page cache and a memory
whose pages all lack exec: `change_page` faults with
`EXECUTION_SPACE_PROTECTION_FAULT`. -/
theorem change_page_exec_protection_witness :
    change_page
      ⟨fun _ => ⟨false, false⟩, false, false, fun _ _ _ st => st⟩ 1 0
      ⟨0, ⟨0, ⟨false, false⟩⟩, [], 0⟩ =
      CPUResult.fault MachExcept.EXECUTION_SPACE_PROTECTION_FAULT :=
  (change_page_exec_protection
    ⟨fun _ => ⟨false, false⟩, false, false, fun _ _ _ st => st⟩ 0 0
    ⟨0, ⟨0, ⟨false, false⟩⟩, [], 0⟩).2.1 (Or.inl rfl) rfl

/-- **C5.** When the current execute page is trapped, `check_page`
invokes the trap callback with the PC's offset within the page, kind
`TRAP_EXEC` and the page number; if the PC afterwards lies on a
different page, the current page is re-resolved via `change_page`
with `pc >> 12`; and any successful `check_page` on a trapped page
leaves the cached page number equal to `pc >> 12`. -/
theorem check_page_trap_semantics (env : MachineEnv) (fuel : Nat)
    (s : CPUState)
    (htrap : s.current.page.has_trap = true)
    (hlo : s.current.pageno <<< PAGE_SHIFT ≤ s.pc)
    (hhi : s.pc < SIZE_T_MOD) :
    (∀ t, t = env.trap_cb (s.pc - (s.current.pageno <<< PAGE_SHIFT))
            TrapKind.TRAP_EXEC s.current.pageno s →
      (t.current.pageno = t.pc >>> PAGE_SHIFT →
        check_page env (fuel + 1) s = CPUResult.ok t) ∧
      (t.current.pageno ≠ t.pc >>> PAGE_SHIFT →
        check_page env (fuel + 1) s =
          change_page env fuel (t.pc >>> PAGE_SHIFT) t)) ∧
    (∀ u, check_page env (fuel + 1) s = CPUResult.ok u →
      u.current.pageno = u.pc >>> PAGE_SHIFT) := by
  have hws : wsub s.pc (s.current.pageno <<< PAGE_SHIFT) =
      s.pc - (s.current.pageno <<< PAGE_SHIFT) :=
    wsub_eq_sub _ _ hlo hhi
  constructor
  · intro t hteq
    have hbody : check_page env (fuel + 1) s =
        (if t.current.pageno ≠ t.pc >>> PAGE_SHIFT
         then change_page env fuel (t.pc >>> PAGE_SHIFT) t
         else CPUResult.ok t) := by
      simp only [check_page, htrap, if_true, hws, ← hteq]
    constructor
    · intro hsame
      rw [hbody, if_neg (not_not_intro hsame)]
    · intro hdiff
      rw [hbody, if_pos hdiff]
  · intro u h
    exact (pageno_tracks_pc env (fuel + 1)).2 s u (Or.inr htrap) h

/-- Witness for C5: an identity trap callback on a trapped page whose
PC stays put yields a successful `check_page` returning the callback's
result. -/
theorem check_page_trap_semantics_witness :
    check_page ⟨fun _ => ⟨true, false⟩, false, true, fun _ _ _ st => st⟩ 1
      ⟨0x2345, ⟨2, ⟨true, true⟩⟩, [], 0⟩ =
      CPUResult.ok ⟨0x2345, ⟨2, ⟨true, true⟩⟩, [], 0⟩ :=
  ((check_page_trap_semantics
      ⟨fun _ => ⟨true, false⟩, false, true, fun _ _ _ st => st⟩ 0
      ⟨0x2345, ⟨2, ⟨true, true⟩⟩, [], 0⟩ rfl (by decide)
      (by norm_num [SIZE_T_MOD])).1
    ⟨0x2345, ⟨2, ⟨true, true⟩⟩, [], 0⟩ rfl).1 (by decide)

end LibRiscv
